import Mathlib

/-!
Verification of the Order/Inventory Reconciliation Engine of the LiquiDash
dashboard.  The definitions below are a shallow embedding of the relevant
handlers of `src/App.tsx` (state updates `handleCreateOrder`,
`handleEditOrder`, `handleDeleteOrder`, `handleMarkAsPaid`,
`handleUpdateStock`, the derived view `clientDataWithStats`) and of the order
form logic of the modals component (`handleAddItem`, the base-price
computation of `handleProductChange`, `handleNewItemManualChange`,
`EditOrderModal.handleSubmit`).  JavaScript numbers are modelled as exact
rationals, `Math.round` as floor of `x + 1/2` (JavaScript rounds half towards
positive infinity), and JavaScript `Map` as an insertion-ordered association
list.
-/

/-- JavaScript `Math.round`: rounds to the nearest integer, halves towards
positive infinity. -/
def jsRound (x : ℚ) : ℤ := ⌊x + 1/2⌋

/-- The computation `Math.round(x * 100) / 100`, the two-decimal rounding used by
`handleUpdateStock`. -/
def round2 (x : ℚ) : ℚ := (jsRound (x * 100) : ℚ) / 100

/-- A pricing tier `{sizeLabel, quantity, price}` of a product. -/
structure ProductTier where
  sizeLabel : String
  quantity : ℚ
  price : ℚ
deriving DecidableEq

/-- A product as used by the reconciliation handlers in `App.tsx`. -/
structure Product where
  id : String
  name : String
  type : String
  stock : ℚ
  costPerUnit : ℚ
  tiers : List ProductTier
  lastOrdered : Option String
deriving DecidableEq

/-- An order line item `{productId, quantity, price, sizeLabel}`. -/
structure OrderItem where
  productId : String
  quantity : ℚ
  price : ℚ
  sizeLabel : String
deriving DecidableEq

/-- A fee or discount adjustment `{amount, description}`. -/
structure Adjustment where
  amount : ℚ
  description : String
deriving DecidableEq

/-- Payment method flags of an order. -/
structure PaymentMethods where
  cash : Bool
  etransfer : Bool
  other : Bool
deriving DecidableEq

/-- Order status: `Draft`, `Unpaid` or `Completed`. -/
inductive OrderStatus where
  | Draft
  | Unpaid
  | Completed
deriving DecidableEq

/-- An order record. -/
structure Order where
  id : String
  clientId : String
  items : List OrderItem
  total : ℚ
  status : OrderStatus
  date : String
  notes : String
  amountPaid : ℚ
  paymentMethods : PaymentMethods
  fees : Adjustment
  discount : Adjustment
deriving DecidableEq

/-- The argument of `handleCreateOrder`: `Omit<Order, 'id' | 'total' |
'status'>`. -/
structure OrderData where
  clientId : String
  items : List OrderItem
  date : String
  notes : String
  amountPaid : ℚ
  paymentMethods : PaymentMethods
  fees : Adjustment
  discount : Adjustment
deriving DecidableEq

/-- The argument of `handleEditOrder`: `Omit<Order, 'id'>`, as produced by
`EditOrderModal.handleSubmit`. -/
structure OrderUpdate where
  clientId : String
  items : List OrderItem
  total : ℚ
  status : OrderStatus
  date : String
  notes : String
  amountPaid : ℚ
  paymentMethods : PaymentMethods
  fees : Adjustment
  discount : Adjustment
deriving DecidableEq

/-- The spread `{ ...updatedData, id: originalOrder.id }`: an `OrderUpdate` promoted to an
`Order` with the given id. -/
def OrderUpdate.withId (u : OrderUpdate) (id : String) : Order :=
  { id := id, clientId := u.clientId, items := u.items, total := u.total,
    status := u.status, date := u.date, notes := u.notes,
    amountPaid := u.amountPaid, paymentMethods := u.paymentMethods,
    fees := u.fees, discount := u.discount }

/-- A client record; `orders` and `totalSpent` are the stored (never
authoritative) fields that `clientDataWithStats` overwrites. -/
structure Client where
  id : String
  displayId : Nat
  name : String
  orders : Nat
  totalSpent : ℚ
deriving DecidableEq

/-- An expense record. -/
structure Expense where
  id : String
  date : String
  description : String
  amount : ℚ
  category : String
deriving DecidableEq

/-- The call `s.padStart(4, '0')` as used for order identifiers. -/
def padStart4 (s : String) : String :=
  String.mk (List.replicate (4 - s.length) '0') ++ s

/-- The fold `items.reduce((sum, item) => sum + item.price, 0)`. -/
def itemsPriceTotal (items : List OrderItem) : ℚ :=
  items.foldl (fun sum item => sum + item.price) 0

/-- The order constructed by `handleCreateOrder`: total, status and identifier
are computed from the request and the current order count. -/
def mkNewOrder (orderData : OrderData) (orders : List Order) : Order :=
  let itemsTotal := itemsPriceTotal orderData.items
  let total := itemsTotal + orderData.fees.amount - orderData.discount.amount
  let status : OrderStatus :=
    if orderData.amountPaid ≥ total then .Completed else .Unpaid
  { id := "ord-" ++ padStart4 (toString (orders.length + 1)),
    clientId := orderData.clientId, items := orderData.items, total := total,
    status := status, date := orderData.date, notes := orderData.notes,
    amountPaid := orderData.amountPaid,
    paymentMethods := orderData.paymentMethods, fees := orderData.fees,
    discount := orderData.discount }

/-- Handler `handleCreateOrder` of `App.tsx`: prepends the new order and decrements
stock of each product that `items.find` locates, stamping `lastOrdered`. -/
def handleCreateOrder (timestamp : String) (orderData : OrderData)
    (orders : List Order) (products : List Product) :
    List Order × List Product :=
  let newOrder := mkNewOrder orderData orders
  let newOrders := newOrder :: orders
  let newProducts := products.map (fun p =>
    match newOrder.items.find? (fun item => item.productId == p.id) with
    | some itemInOrder =>
        { p with stock := p.stock - itemInOrder.quantity,
                 lastOrdered := some timestamp }
    | none => p)
  (newOrders, newProducts)

/-- Handler `handleDeleteOrder` of `App.tsx`: returns stock of each product that
`items.find` locates and filters the order out by id. -/
def handleDeleteOrder (selectedOrder : Order) (orders : List Order)
    (products : List Product) : List Order × List Product :=
  let newProducts := products.map (fun p =>
    match selectedOrder.items.find? (fun item => item.productId == p.id) with
    | some itemInOrder =>
        { p with stock := p.stock + itemInOrder.quantity }
    | none => p)
  let newOrders := orders.filter (fun o => ¬ (o.id == selectedOrder.id))
  (newOrders, newProducts)

/-- Total quantity of the items of a list referencing a given product: the
specification's `Σ matching item.quantity`. -/
def sumQty (items : List OrderItem) (pid : String) : ℚ :=
  ((items.filter (fun it => it.productId == pid)).map
    (fun it => it.quantity)).sum

/-- Quantity of the first item of a list referencing a given product
(0 when none does): what `items.find` based stock updates actually apply. -/
def firstItemQty (items : List OrderItem) (pid : String) : ℚ :=
  match items.find? (fun it => it.productId == pid) with
  | some it => it.quantity
  | none => 0

@[simp] lemma mkNewOrder_items (d : OrderData) (orders : List Order) :
    (mkNewOrder d orders).items = d.items := rfl

/-- C4: Creating an order and then immediately deleting that same order leaves
every product's stock numerically equal to its value before the create, for
all item lists including those with repeated products. -/
theorem create_delete_stock_roundtrip (ts : String) (d : OrderData)
    (orders : List Order) (products : List Product) :
    ((handleDeleteOrder (mkNewOrder d orders)
        (handleCreateOrder ts d orders products).1
        (handleCreateOrder ts d orders products).2).2).map Product.stock
      = products.map Product.stock := by
  simp only [handleCreateOrder, handleDeleteOrder, List.map_map]
  refine List.map_congr_left (fun p _ => ?_)
  simp only [Function.comp_apply, mkNewOrder_items]
  cases hfind : d.items.find? (fun item => item.productId == p.id) with
  | none => simp [hfind]
  | some it => simp [hfind]

/-- C2 (amended): on order creation each referenced product's stock decreases
by the quantity of the FIRST order item referencing it (`items.find`), not by
the sum over all matching items, and its last-ordered timestamp is set;
products referenced by no item are unchanged. -/
theorem handleCreateOrder_stock_first_item (ts : String) (d : OrderData)
    (orders : List Order) (products : List Product) :
    (handleCreateOrder ts d orders products).2
      = products.map (fun p =>
          if d.items.any (fun it => it.productId == p.id) then
            { p with stock := p.stock - firstItemQty d.items p.id,
                     lastOrdered := some ts }
          else p) := by
  simp only [handleCreateOrder, mkNewOrder_items]
  refine List.map_congr_left (fun p _ => ?_)
  cases hfind : d.items.find? (fun it => it.productId == p.id) with
  | none =>
      have hany : d.items.any (fun it => it.productId == p.id) = false := by
        rw [List.any_eq_false]
        intro it hit
        exact List.find?_eq_none.mp hfind it hit
      simp [hfind, hany]
  | some it0 =>
      have hany : d.items.any (fun it => it.productId == p.id) = true := by
        have hmem := List.mem_of_find?_eq_some hfind
        have hp := List.find?_some hfind
        rw [List.any_eq_true]
        exact ⟨it0, hmem, hp⟩
      simp [hfind, hany, firstItemQty]

/-- Concrete product used to refute the per-product summed stock decrement on
the create path. -/
def exProductC2 : Product :=
  { id := "p1", name := "Widget", type := "unit", stock := 10,
    costPerUnit := 2, tiers := [], lastOrdered := none }

/-- Order request with the same product referenced by two items (quantities
2 and 3). -/
def exDataC2 : OrderData :=
  { clientId := "c1",
    items := [{ productId := "p1", quantity := 2, price := 20,
                sizeLabel := "A" },
              { productId := "p1", quantity := 3, price := 30,
                sizeLabel := "B" }],
    date := "2024-01-01", notes := "", amountPaid := 0,
    paymentMethods := { cash := true, etransfer := false, other := false },
    fees := { amount := 0, description := "" },
    discount := { amount := 0, description := "" } }

/-- C2 counterexample: with the same product in two items (quantities 2 and 3,
stock 10) the create handler leaves stock 8 — it subtracts only the first
item's quantity — whereas the claimed sum of all matching quantities would
leave stock 5. -/
theorem handleCreateOrder_stock_sum_counterexample :
    (handleCreateOrder "t" exDataC2 [] [exProductC2]).2.map Product.stock
        ≠ [exProductC2.stock - sumQty exDataC2.items exProductC2.id]
    ∧ (handleCreateOrder "t" exDataC2 [] [exProductC2]).2.map Product.stock
        = [8]
    ∧ exProductC2.stock - sumQty exDataC2.items exProductC2.id = 5 := by
  refine ⟨?_, ?_, ?_⟩ <;>
    norm_num [handleCreateOrder, mkNewOrder, sumQty, exProductC2, exDataC2,
      List.find?]

/-- JavaScript `Map.get`: value of the first (only) entry with the given
key. -/
def mapGet (m : List (String × ℚ)) (k : String) : Option ℚ :=
  (m.find? (fun e => e.1 == k)).map (fun e => e.2)

/-- JavaScript `Map.set`: replaces the value in place when the key is present,
appends the pair otherwise. -/
def mapSet (m : List (String × ℚ)) (k : String) (v : ℚ) :
    List (String × ℚ) :=
  if m.any (fun e => e.1 == k) then
    m.map (fun e => if e.1 == k then (k, v) else e)
  else m ++ [(k, v)]

lemma find?_map_keyUpdate (l : List (String × ℚ)) (k k2 : String) (v : ℚ)
    (h : ¬ k = k2) :
    (l.map (fun e => if e.1 == k then (k, v) else e)).find?
        (fun e => e.1 == k2)
      = l.find? (fun e => e.1 == k2) := by
  induction l with
  | nil => rfl
  | cons e rest ih =>
      by_cases he : e.1 = k
      · rw [List.map_cons, if_pos (by simpa using he)]
        rw [List.find?_cons_of_neg _ (by simpa using h),
          List.find?_cons_of_neg _ (by simp [he, h]), ih]
      · rw [List.map_cons, if_neg (by simpa using he)]
        by_cases he2 : e.1 = k2
        · rw [List.find?_cons_of_pos _ (by simpa using he2),
            List.find?_cons_of_pos _ (by simpa using he2)]
        · rw [List.find?_cons_of_neg _ (by simpa using he2),
            List.find?_cons_of_neg _ (by simpa using he2), ih]

lemma mapGet_map_keyUpdate_self (l : List (String × ℚ)) (k : String) (v : ℚ)
    (hany : l.any (fun e => e.1 == k) = true) :
    mapGet (l.map (fun e => if e.1 == k then (k, v) else e)) k = some v := by
  induction l with
  | nil => simp at hany
  | cons e rest ih =>
      by_cases he : e.1 = k
      · rw [List.map_cons, if_pos (by simpa using he)]
        rw [mapGet, List.find?_cons_of_pos _ (by simp)]
        rfl
      · have hrest : rest.any (fun e => e.1 == k) = true := by
          rcases (List.any_eq_true).mp hany with ⟨x, hx, hpx⟩
          rcases List.mem_cons.mp hx with hx | hx
          · exact absurd (by simpa using hpx) (by simpa [hx] using he)
          · exact (List.any_eq_true).mpr ⟨x, hx, hpx⟩
        rw [List.map_cons, if_neg (by simpa using he)]
        rw [mapGet, List.find?_cons_of_neg _ (by simpa using he)]
        exact ih hrest

lemma mapGet_mapSet (m : List (String × ℚ)) (k k2 : String) (v : ℚ) :
    mapGet (mapSet m k v) k2 = if k = k2 then some v else mapGet m k2 := by
  rw [mapSet]
  by_cases hany : m.any (fun e => e.1 == k) = true
  · rw [if_pos hany]
    by_cases h : k = k2
    · subst h
      rw [if_pos rfl]
      exact mapGet_map_keyUpdate_self m k v hany
    · rw [if_neg h, mapGet, mapGet, find?_map_keyUpdate m k k2 v h]
  · rw [if_neg hany]
    have hnone : m.find? (fun e => e.1 == k) = none := by
      rw [List.find?_eq_none]
      intro x hx hpx
      exact hany ((List.any_eq_true).mpr ⟨x, hx, hpx⟩)
    by_cases h : k = k2
    · subst h
      rw [if_pos rfl, mapGet, List.find?_append, hnone, Option.none_or,
        List.find?_cons_of_pos _ (by simp)]
      rfl
    · rw [if_neg h, mapGet, List.find?_append, mapGet]
      have htail : ([(k, v)] : List (String × ℚ)).find?
          (fun e => e.1 == k2) = none := by
        rw [List.find?_eq_none]
        intro x hx hpx
        rcases List.mem_singleton.mp hx with rfl
        exact h (by simpa using hpx)
      rw [htail, Option.or_none]

@[simp] lemma sumQty_nil (pid : String) : sumQty [] pid = 0 := rfl

lemma sumQty_cons (it : OrderItem) (rest : List OrderItem) (pid : String) :
    sumQty (it :: rest) pid
      = (if it.productId = pid then it.quantity else 0) + sumQty rest pid := by
  by_cases h : it.productId = pid <;> simp [sumQty, List.filter_cons, h]

/-- First pass of `handleEditOrder`: stock to return to inventory, one `Map`
entry per product of the original item list. -/
def stockChangesAdd (items : List OrderItem) (m : List (String × ℚ)) :
    List (String × ℚ) :=
  items.foldl (fun m item => mapSet m item.productId
    ((mapGet m item.productId).getD 0 + item.quantity)) m

/-- Second pass of `handleEditOrder`: new stock to be removed, subtracted on
the same `Map`. -/
def stockChangesSub (items : List OrderItem) (m : List (String × ℚ)) :
    List (String × ℚ) :=
  items.foldl (fun m item => mapSet m item.productId
    ((mapGet m item.productId).getD 0 - item.quantity)) m

lemma stockChangesAdd_getD (items : List OrderItem) (m : List (String × ℚ))
    (k : String) :
    (mapGet (stockChangesAdd items m) k).getD 0
      = (mapGet m k).getD 0 + sumQty items k := by
  induction items generalizing m with
  | nil => simp [stockChangesAdd]
  | cons it rest ih =>
      rw [stockChangesAdd, List.foldl_cons, ← stockChangesAdd, ih,
        sumQty_cons, mapGet_mapSet]
      by_cases h : it.productId = k
      · rw [if_pos h, if_pos h, h]
        simp
        ring
      · rw [if_neg h, if_neg h]
        ring

lemma stockChangesSub_getD (items : List OrderItem) (m : List (String × ℚ))
    (k : String) :
    (mapGet (stockChangesSub items m) k).getD 0
      = (mapGet m k).getD 0 - sumQty items k := by
  induction items generalizing m with
  | nil => simp [stockChangesSub]
  | cons it rest ih =>
      rw [stockChangesSub, List.foldl_cons, ← stockChangesSub, ih,
        sumQty_cons, mapGet_mapSet]
      by_cases h : it.productId = k
      · rw [if_pos h, if_pos h, h]
        simp
        ring
      · rw [if_neg h, if_neg h]
        ring

lemma stockChangesAdd_isSome (items : List OrderItem)
    (m : List (String × ℚ)) (k : String) :
    (mapGet (stockChangesAdd items m) k).isSome
      = ((mapGet m k).isSome || items.any (fun it => it.productId == k)) := by
  induction items generalizing m with
  | nil => simp [stockChangesAdd]
  | cons it rest ih =>
      rw [stockChangesAdd, List.foldl_cons, ← stockChangesAdd, ih,
        mapGet_mapSet, List.any_cons]
      by_cases h : it.productId = k
      · simp [h]
      · have hb : (it.productId == k) = false := by simp [beq_iff_eq, h]
        simp [h, hb]

lemma stockChangesSub_isSome (items : List OrderItem)
    (m : List (String × ℚ)) (k : String) :
    (mapGet (stockChangesSub items m) k).isSome
      = ((mapGet m k).isSome || items.any (fun it => it.productId == k)) := by
  induction items generalizing m with
  | nil => simp [stockChangesSub]
  | cons it rest ih =>
      rw [stockChangesSub, List.foldl_cons, ← stockChangesSub, ih,
        mapGet_mapSet, List.any_cons]
      by_cases h : it.productId = k
      · simp [h]
      · have hb : (it.productId == k) = false := by simp [beq_iff_eq, h]
        simp [h, hb]

lemma sumQty_eq_zero (items : List OrderItem) (pid : String)
    (h : items.any (fun it => it.productId == pid) = false) :
    sumQty items pid = 0 := by
  rw [sumQty]
  have : items.filter (fun it => it.productId == pid) = [] := by
    rw [List.filter_eq_nil_iff]
    intro it hit
    intro hp
    rw [List.any_eq_false] at h
    exact h it hit hp
  rw [this]
  rfl

lemma contains_map_productId (items : List OrderItem) (pid : String) :
    (items.map (fun item => item.productId)).contains pid
      = items.any (fun it => it.productId == pid) := by
  induction items with
  | nil => rfl
  | cons it rest ih =>
      rw [List.map_cons, List.contains_cons, ih, List.any_cons]
      by_cases h : it.productId = pid
      · simp [h]
      · have hb : (it.productId == pid) = false := by simp [beq_iff_eq, h]
        have hb2 : (pid == it.productId) = false := by
          simp [beq_iff_eq]
          exact fun hx => h hx.symm
        simp [hb, hb2]

/-- Handler `handleEditOrder` of `App.tsx`: accumulates one signed stock delta per
product in a `Map` (original items add, updated items subtract), applies it in
one `products.map` pass, stamps `lastOrdered` for products of the updated
list, and replaces the order by id. -/
def handleEditOrder (timestamp : String) (originalOrder : Order)
    (updatedData : OrderUpdate) (orders : List Order)
    (products : List Product) : List Order × List Product :=
  let stockChanges := stockChangesSub updatedData.items
    (stockChangesAdd originalOrder.items [])
  let updatedProductIds := updatedData.items.map (fun item => item.productId)
  let newProducts := products.map (fun p =>
    let stockChange := mapGet stockChanges p.id
    let shouldUpdateTimestamp := updatedProductIds.contains p.id
    if stockChange.isSome || shouldUpdateTimestamp then
      { p with stock := p.stock + stockChange.getD 0,
               lastOrdered := if shouldUpdateTimestamp then some timestamp
                              else p.lastOrdered }
    else p)
  let newOrders := orders.map (fun o =>
    if o.id == originalOrder.id then updatedData.withId originalOrder.id
    else o)
  (newOrders, newProducts)

/-- C3: an order edit changes each product's stock by exactly one coalesced
signed delta, the total quantity over the original items minus the total
quantity over the updated items (repeated products summed), in a single pass
over the product list, and refreshes the last-ordered timestamp exactly for
the products appearing in the updated item list. -/
theorem handleEditOrder_coalesced_delta (ts : String) (originalOrder : Order)
    (updatedData : OrderUpdate) (orders : List Order)
    (products : List Product) :
    (handleEditOrder ts originalOrder updatedData orders products).2
      = products.map (fun p =>
          { p with
            stock := p.stock + (sumQty originalOrder.items p.id
              - sumQty updatedData.items p.id),
            lastOrdered :=
              if updatedData.items.any (fun it => it.productId == p.id)
              then some ts else p.lastOrdered }) := by
  rw [handleEditOrder]
  refine List.map_congr_left (fun p _ => ?_)
  have hsome : (mapGet (stockChangesSub updatedData.items
      (stockChangesAdd originalOrder.items [])) p.id).isSome
      = (originalOrder.items.any (fun it => it.productId == p.id)
        || updatedData.items.any (fun it => it.productId == p.id)) := by
    rw [stockChangesSub_isSome, stockChangesAdd_isSome]
    simp [mapGet]
  have hgetD : (mapGet (stockChangesSub updatedData.items
      (stockChangesAdd originalOrder.items [])) p.id).getD 0
      = sumQty originalOrder.items p.id - sumQty updatedData.items p.id := by
    rw [stockChangesSub_getD, stockChangesAdd_getD]
    simp [mapGet]
  have hcontains : (updatedData.items.map
      (fun item => item.productId)).contains p.id
      = updatedData.items.any (fun it => it.productId == p.id) :=
    contains_map_productId updatedData.items p.id
  simp only [hsome, hgetD, hcontains]
  by_cases hB : updatedData.items.any (fun it => it.productId == p.id) = true
  · simp [hB]
  · have hBf : updatedData.items.any (fun it => it.productId == p.id)
        = false := by simpa using hB
    by_cases hA : originalOrder.items.any
        (fun it => it.productId == p.id) = true
    · simp [hA, hBf]
    · have hAf : originalOrder.items.any (fun it => it.productId == p.id)
          = false := by simpa using hA
      have hsA : sumQty originalOrder.items p.id = 0 :=
        sumQty_eq_zero _ _ hAf
      have hsB : sumQty updatedData.items p.id = 0 :=
        sumQty_eq_zero _ _ hBf
      rw [hAf, hBf, hsA, hsB]
      simp

/-- The new-item sub-form state of the order form. An empty `productId`
string means no product selected; `none` for `quantity`/`price` models an
empty text input (the source checks `!newItem.quantity` etc. and then parses
with `parseFloat`). -/
structure NewItemState where
  productId : String
  selectedTierLabel : String
  quantity : Option ℚ
  price : Option ℚ
deriving DecidableEq

/-- Handler `handleAddItem` of the order form (`OrderForm` component): validates the
new-item inputs against the product catalogue and either reports a validation
alert, leaving the item list (and the products) untouched, or appends the
resolved line item. The silent early return on a missing product is modelled
as an error as well. -/
def handleAddItem (products : List Product) (items : List OrderItem)
    (newItem : NewItemState) : Except String (List OrderItem) :=
  if newItem.productId = "" ∨ newItem.quantity = none ∨ newItem.price = none
  then .error "Invalid Item"
  else
    match products.find? (fun p => p.id == newItem.productId) with
    | none => .error "Product not found"
    | some product =>
      let quantity := (newItem.quantity).getD 0
      if quantity > product.stock then .error "Insufficient Stock"
      else
        let tier := product.tiers.find?
          (fun t => t.sizeLabel == newItem.selectedTierLabel)
        .ok (items ++ [{ productId := newItem.productId,
                         quantity := quantity,
                         price := (newItem.price).getD 0,
                         sizeLabel := match tier with
                                      | some t => t.sizeLabel
                                      | none => "Custom" }])

/-- The item list produced by a sequence of add-item attempts: a rejected
attempt leaves the list exactly as it was. -/
def addItemsLoop (products : List Product) :
    List OrderItem → List NewItemState → List OrderItem
  | items, [] => items
  | items, ni :: rest =>
      match handleAddItem products items ni with
      | .ok items2 => addItemsLoop products items2 rest
      | .error _ => addItemsLoop products items rest

/-- An order item whose quantity does not exceed the stock of any catalogue
product it references. -/
def validatedFor (products : List Product) (it : OrderItem) : Prop :=
  ∀ p ∈ products, it.productId = p.id → it.quantity ≤ p.stock

lemma find?_unique_of_nodup_ids (products : List Product) (pid : String)
    (product p : Product)
    (hfind : products.find? (fun q => q.id == pid) = some product)
    (hnodup : (products.map Product.id).Nodup)
    (hp : p ∈ products) (hpid : p.id = pid) : p = product := by
  induction products with
  | nil => simp at hp
  | cons a rest ih =>
      rw [List.map_cons, List.nodup_cons] at hnodup
      by_cases ha : a.id = pid
      · rw [List.find?_cons_of_pos _ (by simpa using ha)] at hfind
        injection hfind with hfind
        subst hfind
        rcases List.mem_cons.mp hp with rfl | hp2
        · rfl
        · exact absurd (by
            rw [← ha] at hpid
            rw [← hpid]
            exact List.mem_map_of_mem Product.id hp2) hnodup.1
      · rw [List.find?_cons_of_neg _ (by simpa using ha)] at hfind
        rcases List.mem_cons.mp hp with rfl | hp2
        · exact absurd hpid ha
        · exact ih hfind hnodup.2 hp2

lemma handleAddItem_ok_validated (products : List Product)
    (items : List OrderItem) (ni : NewItemState) (items2 : List OrderItem)
    (h : handleAddItem products items ni = .ok items2)
    (hnodup : (products.map Product.id).Nodup)
    (hold : ∀ it ∈ items, validatedFor products it) :
    ∀ it ∈ items2, validatedFor products it := by
  simp only [handleAddItem] at h
  split at h
  · exact absurd h (by simp)
  · split at h
    · exact absurd h (by simp)
    · rename_i product hfind
      split at h
      · exact absurd h (by simp)
      · rename_i h2
        simp only [Except.ok.injEq] at h
        subst h
        intro it hit
        rcases List.mem_append.mp hit with hmem | hmem
        · exact hold it hmem
        · rcases List.mem_singleton.mp hmem with rfl
          intro p hp hpid
          have hpid2 : p.id = ni.productId := by simpa using hpid.symm
          have hpp : p = product :=
            find?_unique_of_nodup_ids products ni.productId product p
              hfind hnodup hp hpid2
          subst hpp
          exact le_of_not_lt h2

lemma addItemsLoop_validated (products : List Product)
    (hnodup : (products.map Product.id).Nodup) :
    ∀ (attempts : List NewItemState) (items : List OrderItem),
    (∀ it ∈ items, validatedFor products it) →
    ∀ it ∈ addItemsLoop products items attempts, validatedFor products it := by
  intro attempts
  induction attempts with
  | nil => intro items hold; simpa [addItemsLoop] using hold
  | cons ni rest ih =>
      intro items hold
      rw [addItemsLoop]
      cases hadd : handleAddItem products items ni with
      | ok items2 =>
          exact ih items2
            (handleAddItem_ok_validated products items ni items2 hadd hnodup
              hold)
      | error e => exact ih items hold

/-- C1: an add-item request whose quantity exceeds the referenced product's
current stock is rejected with the `Insufficient Stock` validation alert
(first conjunct); a rejected attempt contributes nothing to the order being
built, so no partial mutation occurs (second conjunct); and creating an order
whose item list was assembled through the validated add-item path can take a
product's stock to zero but never below it (third conjunct). -/
theorem createOrder_insufficient_stock_rejected :
    (∀ (products : List Product) (items : List OrderItem)
        (ni : NewItemState) (q : ℚ) (product : Product),
        ¬ ni.productId = "" → ni.quantity = some q → ¬ ni.price = none →
        products.find? (fun p => p.id == ni.productId) = some product →
        q > product.stock →
        handleAddItem products items ni = .error "Insufficient Stock")
    ∧ (∀ (products : List Product) (items : List OrderItem)
        (ni : NewItemState) (rest : List NewItemState) (e : String),
        handleAddItem products items ni = .error e →
        addItemsLoop products items (ni :: rest)
          = addItemsLoop products items rest)
    ∧ (∀ (ts : String) (d : OrderData) (orders : List Order)
        (products : List Product) (attempts : List NewItemState),
        (products.map Product.id).Nodup →
        (∀ p ∈ products, 0 ≤ p.stock) →
        d.items = addItemsLoop products [] attempts →
        ∀ p ∈ (handleCreateOrder ts d orders products).2, 0 ≤ p.stock) := by
  refine ⟨?_, ?_, ?_⟩
  · intro products items ni q product h1 h2 h3 hfind h5
    have hcond : ¬ (ni.productId = "" ∨ ni.quantity = none
        ∨ ni.price = none) := by
      push_neg
      exact ⟨h1, by simp [h2], h3⟩
    simp only [handleAddItem, if_neg hcond, hfind, h2, Option.getD_some,
      if_pos h5]
    rw [if_neg (by push_neg; exact ⟨h1, by simp, h3⟩)]
  · intro products items ni rest e herr
    rw [addItemsLoop, herr]
  · intro ts d orders products attempts hnodup hstock hitems p hp
    have hvalid : ∀ it ∈ d.items, validatedFor products it := by
      rw [hitems]
      exact addItemsLoop_validated products hnodup attempts []
        (by intro it hit; simp at hit)
    simp only [handleCreateOrder, mkNewOrder_items] at hp
    rcases List.mem_map.mp hp with ⟨p0, hp0, rfl⟩
    cases hfind : d.items.find? (fun item => item.productId == p0.id) with
    | none => simpa [hfind] using hstock p0 hp0
    | some it =>
        have hmem := List.mem_of_find?_eq_some hfind
        have hpid : it.productId = p0.id := by
          simpa using List.find?_some hfind
        have hle : it.quantity ≤ p0.stock := hvalid it hmem p0 hp0 hpid
        simp only [hfind]
        simpa using sub_nonneg.mpr hle

/-- Concrete catalogue for the insufficient-stock rejection: one product with
stock 3. -/
def exProductC1 : Product :=
  { id := "p1", name := "Gadget", type := "unit", stock := 3,
    costPerUnit := 1, tiers := [], lastOrdered := none }

/-- Concrete add-item request of 5 units of the stock-3 product. -/
def exNewItemC1 : NewItemState :=
  { productId := "p1", selectedTierLabel := "", quantity := some 5,
    price := some 50 }

/-- C1 witness: adding 5 units of a product with stock 3 is rejected with the
insufficient-stock validation alert. -/
theorem createOrder_insufficient_stock_rejected_witness :
    handleAddItem [exProductC1] [] exNewItemC1
      = .error "Insufficient Stock" :=
  createOrder_insufficient_stock_rejected.1 [exProductC1] [] exNewItemC1 5
    exProductC1 (by decide) rfl (by decide)
    (by rw [List.find?_cons_of_pos _ (by decide)])
    (by norm_num [exProductC1])

/-- Handler `handleUpdateStock` of `App.tsx` (stock replenishment): adds `amount` to
the product's stock, recomputes the weighted-average unit cost when stock is
added with a valid purchase cost, and records an inventory Expense exactly
when `purchaseCost > 0` and `amount > 0`. The generated expense id and the
current date are passed in as parameters. -/
def handleUpdateStock (today expenseId productId : String)
    (amount purchaseCost : ℚ) (products : List Product)
    (expenses : List Expense) : List Product × List Expense :=
  match products.find? (fun p => p.id == productId) with
  | none => (products, expenses)
  | some productBeforeUpdate =>
      let newProducts := products.map (fun p =>
        if p.id == productId then
          let newStock := p.stock + amount
          let newCostPerUnit :=
            if amount > 0 ∧ purchaseCost > 0 ∧ newStock > 0 then
              round2 ((p.stock * p.costPerUnit + purchaseCost) / newStock)
            else p.costPerUnit
          { p with stock := newStock, costPerUnit := newCostPerUnit }
        else p)
      let newExpenses :=
        if purchaseCost > 0 ∧ amount > 0 then
          { id := expenseId, date := today,
            description := "Stock purchase for " ++ productBeforeUpdate.name,
            amount := purchaseCost,
            category := "Inventory" } :: expenses
        else expenses
      (newProducts, newExpenses)

lemma find?_map_of_id_eq (products : List Product) (pid : String)
    (f : Product → Product) (hf : ∀ p, (f p).id = p.id) :
    (products.map f).find? (fun p => p.id == pid)
      = (products.find? (fun p => p.id == pid)).map f := by
  induction products with
  | nil => rfl
  | cons a rest ih =>
      by_cases ha : a.id = pid
      · rw [List.map_cons,
          List.find?_cons_of_pos _ (by simp [hf, ha]),
          List.find?_cons_of_pos _ (by simpa using ha)]
        rfl
      · rw [List.map_cons,
          List.find?_cons_of_neg _ (by simp [hf, ha]),
          List.find?_cons_of_neg _ (by simpa using ha), ih]

/-- C5: replenishment adds `amount` to the stock (negative corrections
included); the unit cost becomes the weighted average
`round2((stock * unitCost + purchaseCost) / newStock)` exactly when
`amount > 0`, `purchaseCost > 0` and `newStock > 0`, and is unchanged
otherwise; and an Expense of exactly the purchase cost with category
`Inventory` is prepended if and only if `purchaseCost > 0` and
`amount > 0`. -/
theorem handleUpdateStock_spec (today expenseId productId : String)
    (amount purchaseCost : ℚ) (products : List Product)
    (expenses : List Expense) (pb : Product)
    (hfind : products.find? (fun p => p.id == productId) = some pb) :
    ((handleUpdateStock today expenseId productId amount purchaseCost
        products expenses).1.find? (fun p => p.id == productId)
      = some { pb with
          stock := pb.stock + amount,
          costPerUnit :=
            if amount > 0 ∧ purchaseCost > 0 ∧ pb.stock + amount > 0 then
              round2 ((pb.stock * pb.costPerUnit + purchaseCost)
                / (pb.stock + amount))
            else pb.costPerUnit })
    ∧ ((handleUpdateStock today expenseId productId amount purchaseCost
        products expenses).2
      = if purchaseCost > 0 ∧ amount > 0 then
          { id := expenseId, date := today,
            description := "Stock purchase for " ++ pb.name,
            amount := purchaseCost, category := "Inventory" } :: expenses
        else expenses) := by
  have hpid : pb.id = productId := by
    simpa using List.find?_some hfind
  constructor
  · simp only [handleUpdateStock, hfind]
    rw [find?_map_of_id_eq products productId _ (by
      intro p
      by_cases hp : p.id = productId
      · simp [hp]
      · simp [hp, beq_iff_eq])]
    rw [hfind]
    simp only [Option.map_some']
    rw [if_pos (by simpa using hpid)]
  · simp only [handleUpdateStock, hfind]

/-- Concrete product for the cost-averaging example: stock 10, unit cost
2.00. -/
def exProductC5 : Product :=
  { id := "p1", name := "Widget", type := "unit", stock := 10,
    costPerUnit := 2, tiers := [], lastOrdered := none }

/-- C5 witness: replenishing stock 10 / unit cost 2.00 by +10 at purchase
cost 40 yields stock 20, unit cost 3.00, and an Inventory expense of 40. -/
theorem handleUpdateStock_spec_witness :
    (handleUpdateStock "2024-01-01" "exp-1" "p1" 10 40 [exProductC5] []).1.find?
        (fun p => p.id == "p1")
      = some { id := "p1", name := "Widget", type := "unit", stock := 20,
               costPerUnit := 3, tiers := [], lastOrdered := none }
    ∧ (handleUpdateStock "2024-01-01" "exp-1" "p1" 10 40 [exProductC5] []).2
      = [{ id := "exp-1", date := "2024-01-01",
           description := "Stock purchase for Widget", amount := 40,
           category := "Inventory" }] := by
  have h := handleUpdateStock_spec "2024-01-01" "exp-1" "p1" 10 40
    [exProductC5] [] exProductC5 (by rw [List.find?_cons_of_pos _ (by decide)])
  constructor
  · rw [h.1]
    have hcost : round2 ((exProductC5.stock * exProductC5.costPerUnit + 40)
        / (exProductC5.stock + 10)) = 3 := by
      rw [round2, jsRound]
      norm_num [exProductC5]
    rw [if_pos (by norm_num [exProductC5])]
    rw [hcost]
    norm_num [exProductC5]
  · rw [h.2, if_pos (by norm_num)]
    rfl

/-- Handler `handleMarkAsPaid` of `App.tsx`: sets `amountPaid` to the order's total
and the status to `Completed`. -/
def handleMarkAsPaid (orderId : String) (orders : List Order) : List Order :=
  orders.map (fun o =>
    if o.id == orderId then
      { o with amountPaid := o.total, status := .Completed }
    else o)

/-- The order form state as submitted (string inputs already parsed with
`Number(x) || 0`). -/
structure OrderFormState where
  clientId : String
  items : List OrderItem
  notes : String
  date : String
  amountPaid : ℚ
  paymentMethods : PaymentMethods
  fees : Adjustment
  discount : Adjustment
deriving DecidableEq

set_option linter.unusedVariables false in
/-- Handler `EditOrderModal.handleSubmit`: recomputes the total and the status from
the edited form state and produces the `Omit<Order, 'id'>` update passed to
`handleEditOrder`. The source initializes `status` from `order.status` and
then overwrites it on both branches of the comparison. -/
def editOrderSubmit (order : Order) (orderState : OrderFormState) :
    OrderUpdate :=
  let itemsTotal := itemsPriceTotal orderState.items
  let feesAmount := orderState.fees.amount
  let discountAmount := orderState.discount.amount
  let total := itemsTotal + feesAmount - discountAmount
  let parsedAmountPaid := orderState.amountPaid
  let status : OrderStatus :=
    if parsedAmountPaid ≥ total then .Completed else .Unpaid
  { clientId := orderState.clientId, items := orderState.items,
    total := total, status := status, date := orderState.date,
    notes := orderState.notes, amountPaid := parsedAmountPaid,
    paymentMethods := orderState.paymentMethods,
    fees := { amount := feesAmount,
              description := orderState.fees.description },
    discount := { amount := discountAmount,
                  description := orderState.discount.description } }

/-- The mutating order operations reachable from the UI. -/
inductive Op where
  | create (timestamp : String) (orderData : OrderData)
  | edit (timestamp : String) (originalOrder : Order) (form : OrderFormState)
  | markPaid (orderId : String)
  | delete (selectedOrder : Order)

/-- One UI operation applied to the `(orders, products)` state. -/
def applyOp (st : List Order × List Product) : Op → List Order × List Product
  | .create ts d => handleCreateOrder ts d st.1 st.2
  | .edit ts orig form =>
      handleEditOrder ts orig (editOrderSubmit orig form) st.1 st.2
  | .markPaid oid => (handleMarkAsPaid oid st.1, st.2)
  | .delete sel => handleDeleteOrder sel st.1 st.2

/-- A sequence of UI operations applied in order. -/
def applyOps (st : List Order × List Product) (ops : List Op) :
    List Order × List Product :=
  ops.foldl applyOp st

/-- The financial total invariant of an order record. -/
def orderTotalInv (o : Order) : Prop :=
  o.total = (o.items.map (fun it => it.price)).sum
    + o.fees.amount - o.discount.amount

/-- The payment status invariant of an order record. -/
def orderStatusInv (o : Order) : Prop :=
  o.status = .Completed ↔ o.amountPaid ≥ o.total

lemma foldl_add_map {α : Type} (f : α → ℚ) (l : List α) (c : ℚ) :
    l.foldl (fun s it => s + f it) c = c + (l.map f).sum := by
  induction l generalizing c with
  | nil => simp
  | cons a rest ih => rw [List.foldl_cons, ih, List.map_cons, List.sum_cons]; ring

lemma itemsPriceTotal_eq_sum (items : List OrderItem) :
    itemsPriceTotal items = (items.map (fun it => it.price)).sum := by
  rw [itemsPriceTotal, foldl_add_map]
  ring

lemma applyOps_orders_preserve (P : Order → Prop)
    (hcreate : ∀ d orders, P (mkNewOrder d orders))
    (hedit : ∀ orig form id, P ((editOrderSubmit orig form).withId id))
    (hpaid : ∀ o, P o →
      P { o with amountPaid := o.total, status := .Completed }) :
    ∀ (ops : List Op) (st : List Order × List Product),
    (∀ o ∈ st.1, P o) → ∀ o ∈ (applyOps st ops).1, P o := by
  intro ops
  induction ops with
  | nil => intro st h; simpa [applyOps] using h
  | cons op rest ih =>
      intro st h
      rw [applyOps, List.foldl_cons, ← applyOps]
      apply ih
      cases op with
      | create ts d =>
          intro o ho
          simp only [applyOp, handleCreateOrder] at ho
          rcases List.mem_cons.mp ho with rfl | ho2
          · exact hcreate d st.1
          · exact h o ho2
      | edit ts orig form =>
          intro o ho
          simp only [applyOp, handleEditOrder] at ho
          rcases List.mem_map.mp ho with ⟨o0, ho0, rfl⟩
          by_cases heq : (o0.id == orig.id) = true
          · rw [if_pos heq]
            exact hedit orig form orig.id
          · rw [if_neg heq]
            exact h o0 ho0
      | markPaid oid =>
          intro o ho
          simp only [applyOp, handleMarkAsPaid] at ho
          rcases List.mem_map.mp ho with ⟨o0, ho0, rfl⟩
          by_cases heq : (o0.id == oid) = true
          · rw [if_pos heq]
            exact hpaid o0 (h o0 ho0)
          · rw [if_neg heq]
            exact h o0 ho0
      | delete sel =>
          intro o ho
          simp only [applyOp, handleDeleteOrder] at ho
          exact h o (List.mem_of_mem_filter ho)

lemma mkNewOrder_totalInv (d : OrderData) (orders : List Order) :
    orderTotalInv (mkNewOrder d orders) := by
  rw [orderTotalInv]
  show itemsPriceTotal d.items + d.fees.amount - d.discount.amount
    = (d.items.map (fun it => it.price)).sum + d.fees.amount
      - d.discount.amount
  rw [itemsPriceTotal_eq_sum]

lemma editOrderSubmit_withId_totalInv (orig : Order) (form : OrderFormState)
    (id : String) : orderTotalInv ((editOrderSubmit orig form).withId id) := by
  rw [orderTotalInv]
  show itemsPriceTotal form.items + form.fees.amount - form.discount.amount
    = (form.items.map (fun it => it.price)).sum + form.fees.amount
      - form.discount.amount
  rw [itemsPriceTotal_eq_sum]

lemma mkNewOrder_statusInv (d : OrderData) (orders : List Order) :
    orderStatusInv (mkNewOrder d orders) := by
  rw [orderStatusInv]
  show (if d.amountPaid ≥ itemsPriceTotal d.items + d.fees.amount
      - d.discount.amount then OrderStatus.Completed
      else OrderStatus.Unpaid) = OrderStatus.Completed ↔ _
  by_cases hc : d.amountPaid ≥ itemsPriceTotal d.items + d.fees.amount
      - d.discount.amount
  · simp only [if_pos hc]
    exact ⟨fun _ => hc, fun _ => trivial⟩
  · simp only [if_neg hc]
    exact ⟨fun hcon => absurd hcon (by decide), fun hge => absurd hge hc⟩

lemma editOrderSubmit_withId_statusInv (orig : Order)
    (form : OrderFormState) (id : String) :
    orderStatusInv ((editOrderSubmit orig form).withId id) := by
  rw [orderStatusInv]
  show (if form.amountPaid ≥ itemsPriceTotal form.items + form.fees.amount
      - form.discount.amount then OrderStatus.Completed
      else OrderStatus.Unpaid) = OrderStatus.Completed ↔ _
  by_cases hc : form.amountPaid ≥ itemsPriceTotal form.items
      + form.fees.amount - form.discount.amount
  · simp only [if_pos hc]
    exact ⟨fun _ => hc, fun _ => trivial⟩
  · simp only [if_neg hc]
    exact ⟨fun hcon => absurd hcon (by decide), fun hge => absurd hge hc⟩

/-- Order request whose discount (50) exceeds its revenue (one 10-priced
item): drives the total to -40. -/
def exNegOrderData : OrderData :=
  { clientId := "c1",
    items := [{ productId := "p1", quantity := 1, price := 10,
                sizeLabel := "1g" }],
    date := "2024-01-01", notes := "", amountPaid := 0,
    paymentMethods := { cash := true, etransfer := false, other := false },
    fees := { amount := 0, description := "" },
    discount := { amount := 50, description := "promo" } }

/-- C6: every order in the state after any sequence of create, edit,
mark-as-paid (and delete) operations has
`total = Σ item.price + fee.amount − discount.amount` exactly, provided the
starting orders satisfy it; moreover a discount exceeding revenue is
accepted: the create handler stores the resulting negative-total order
without error. -/
theorem orders_total_invariant (orders : List Order)
    (products : List Product) (h : ∀ o ∈ orders, orderTotalInv o)
    (ops : List Op) :
    (∀ o ∈ (applyOps (orders, products) ops).1, orderTotalInv o)
    ∧ (mkNewOrder exNegOrderData []).total < 0
    ∧ (handleCreateOrder "t" exNegOrderData [] []).1
        = [mkNewOrder exNegOrderData []] := by
  refine ⟨?_, ?_, rfl⟩
  · exact applyOps_orders_preserve orderTotalInv mkNewOrder_totalInv
      editOrderSubmit_withId_totalInv (fun o ho => ho) ops
      (orders, products) h
  · show itemsPriceTotal exNegOrderData.items + exNegOrderData.fees.amount
      - exNegOrderData.discount.amount < 0
    norm_num [itemsPriceTotal, exNegOrderData]

/-- Concrete operation sequence for the total invariant: create the
discounted order, then mark it as paid. -/
def exOpsC6 : List Op :=
  [Op.create "t1" exNegOrderData, Op.markPaid "ord-0001"]

/-- C6 witness: the invariant holds for every order of the state produced by
a concrete create-then-mark-paid sequence from the empty state, and the
concrete negative total is accepted. -/
theorem orders_total_invariant_witness :
    (∀ o ∈ (applyOps (([] : List Order), ([] : List Product)) exOpsC6).1,
      orderTotalInv o)
    ∧ (mkNewOrder exNegOrderData []).total < 0
    ∧ (handleCreateOrder "t" exNegOrderData [] []).1
        = [mkNewOrder exNegOrderData []] :=
  orders_total_invariant [] [] (by intro o ho; simp at ho) exOpsC6

/-- C7: the status computed on create and on edit is `Completed` when
`amountPaid ≥ total` and `Unpaid` otherwise (second and third conjuncts),
and `status = Completed ⟺ amountPaid ≥ total` holds for every order in the
state after any sequence of create, edit, mark-as-paid (and delete)
operations, provided the starting orders satisfy it. -/
theorem orders_status_invariant (orders : List Order)
    (products : List Product) (h : ∀ o ∈ orders, orderStatusInv o)
    (ops : List Op) :
    (∀ o ∈ (applyOps (orders, products) ops).1, orderStatusInv o)
    ∧ (∀ (d : OrderData) (orders2 : List Order),
        (mkNewOrder d orders2).status
          = if d.amountPaid ≥ (mkNewOrder d orders2).total
            then OrderStatus.Completed else OrderStatus.Unpaid)
    ∧ (∀ (orig : Order) (form : OrderFormState),
        (editOrderSubmit orig form).status
          = if form.amountPaid ≥ (editOrderSubmit orig form).total
            then OrderStatus.Completed else OrderStatus.Unpaid) := by
  refine ⟨?_, fun d orders2 => rfl, fun orig form => rfl⟩
  exact applyOps_orders_preserve orderStatusInv mkNewOrder_statusInv
    editOrderSubmit_withId_statusInv
    (fun o _ => ⟨fun _ => le_refl o.total, fun _ => rfl⟩) ops
    (orders, products) h

/-- Order request used by the status-invariant witness: one 10-priced item,
partially paid. -/
def exOrderDataC7 : OrderData :=
  { clientId := "c1",
    items := [{ productId := "p1", quantity := 1, price := 10,
                sizeLabel := "1g" }],
    date := "2024-01-02", notes := "", amountPaid := 4,
    paymentMethods := { cash := true, etransfer := false, other := false },
    fees := { amount := 0, description := "" },
    discount := { amount := 0, description := "" } }

/-- Concrete operation sequence for the status invariant: create a partially
paid order, then mark it as paid. -/
def exOpsC7 : List Op :=
  [Op.create "t1" exOrderDataC7, Op.markPaid "ord-0001"]

/-- C7 witness: the status rule and the status invariant at a concrete
create-then-mark-paid sequence from the empty state. -/
theorem orders_status_invariant_witness :
    (∀ o ∈ (applyOps (([] : List Order), ([] : List Product)) exOpsC7).1,
      orderStatusInv o)
    ∧ (∀ (d : OrderData) (orders2 : List Order),
        (mkNewOrder d orders2).status
          = if d.amountPaid ≥ (mkNewOrder d orders2).total
            then OrderStatus.Completed else OrderStatus.Unpaid)
    ∧ (∀ (orig : Order) (form : OrderFormState),
        (editOrderSubmit orig form).status
          = if form.amountPaid ≥ (editOrderSubmit orig form).total
            then OrderStatus.Completed else OrderStatus.Unpaid) :=
  orders_status_invariant [] [] (by intro o ho; simp at ho) exOpsC7

/-- One step of locating the head of
`tiers.filter(t => t.quantity > 0).sort((a, b) => a.quantity - b.quantity)`:
since the sort is stable, that head is the first tier attaining the minimal
positive quantity, which this fold computes. -/
def tierMinStep (acc : Option ProductTier) (t : ProductTier) :
    Option ProductTier :=
  match acc with
  | none => some t
  | some cur => if t.quantity < cur.quantity then some t else some cur

/-- The smallest positive-quantity tier selected by `handleProductChange`
(`sortedTiers[0]` of the filtered stable sort). -/
def smallestPositiveTier (tiers : List ProductTier) : Option ProductTier :=
  (tiers.filter (fun t => t.quantity > 0)).foldl tierMinStep none

/-- Value `basePricePerUnit` as set by `handleProductChange`:
`smallestTier.price / smallestTier.quantity` when a positive-quantity tier
exists. -/
def basePricePerUnitFor (product : Product) : Option ℚ :=
  match smallestPositiveTier product.tiers with
  | some smallestTier => some (smallestTier.price / smallestTier.quantity)
  | none => none

/-- The field argument of `handleNewItemManualChange`. -/
inductive ManualField where
  | quantity
  | price

/-- Handler `handleNewItemManualChange` of the order form: negative inputs are not
processed; a quantity change with a known base price derives
`price = Math.round(quantity * basePricePerUnit)` and tags the line
`custom`; otherwise the typed field is stored and the line is tagged
`custom`. -/
def handleNewItemManualChange (basePricePerUnit : Option ℚ)
    (prev : NewItemState) (field : ManualField) (fieldValue : ℚ) :
    NewItemState :=
  if fieldValue < 0 then prev
  else
    match field, basePricePerUnit with
    | .quantity, some b =>
        let quantity := fieldValue
        let price := quantity * b
        { prev with quantity := some fieldValue,
                    price := some ((jsRound price : ℤ) : ℚ),
                    selectedTierLabel := "custom" }
    | .quantity, none =>
        { prev with quantity := some fieldValue,
                    selectedTierLabel := "custom" }
    | .price, _ =>
        { prev with price := some fieldValue,
                    selectedTierLabel := "custom" }

lemma foldl_tierMinStep_spec (l : List ProductTier) (c : ProductTier) :
    ∃ r, l.foldl tierMinStep (some c) = some r
      ∧ (r = c ∨ r ∈ l) ∧ r.quantity ≤ c.quantity
      ∧ ∀ u ∈ l, r.quantity ≤ u.quantity := by
  induction l generalizing c with
  | nil => exact ⟨c, rfl, Or.inl rfl, le_refl _, by simp⟩
  | cons a rest ih =>
      rw [List.foldl_cons]
      by_cases hac : a.quantity < c.quantity
      · have hstep : tierMinStep (some c) a = some a := by
          rw [tierMinStep, if_pos hac]
        rw [hstep]
        rcases ih a with ⟨r, hr, hmem, hle, hmin⟩
        refine ⟨r, hr, ?_, le_trans hle (le_of_lt hac), ?_⟩
        · rcases hmem with heq | hmem2
          · rw [heq]
            exact Or.inr (List.mem_cons_self a rest)
          · exact Or.inr (List.mem_cons_of_mem a hmem2)
        · intro u hu
          rcases List.mem_cons.mp hu with rfl | hu2
          · exact hle
          · exact hmin u hu2
      · have hstep : tierMinStep (some c) a = some c := by
          rw [tierMinStep, if_neg hac]
        rw [hstep]
        rcases ih c with ⟨r, hr, hmem, hle, hmin⟩
        refine ⟨r, hr, ?_, hle, ?_⟩
        · rcases hmem with rfl | hmem2
          · exact Or.inl rfl
          · exact Or.inr (List.mem_cons_of_mem a hmem2)
        · intro u hu
          rcases List.mem_cons.mp hu with rfl | hu2
          · exact le_trans hle (not_lt.mp hac)
          · exact hmin u hu2

lemma smallestPositiveTier_spec (tiers : List ProductTier) (t : ProductTier)
    (h : smallestPositiveTier tiers = some t) :
    t ∈ tiers ∧ 0 < t.quantity
      ∧ ∀ u ∈ tiers, 0 < u.quantity → t.quantity ≤ u.quantity := by
  rw [smallestPositiveTier] at h
  cases hf : tiers.filter (fun t => t.quantity > 0) with
  | nil => rw [hf] at h; exact absurd h (by simp [List.foldl])
  | cons a rest =>
      rw [hf, List.foldl_cons] at h
      have hstep : tierMinStep none a = some a := rfl
      rw [hstep] at h
      rcases foldl_tierMinStep_spec rest a with ⟨r, hr, hmem, hle, hmin⟩
      rw [hr] at h
      injection h with h
      rw [← h]
      have hfiltmem : r ∈ tiers.filter (fun t => t.quantity > 0) := by
        rw [hf]
        rcases hmem with heq | hmem2
        · rw [heq]
          exact List.mem_cons_self a rest
        · exact List.mem_cons_of_mem a hmem2
      have hmemt := List.mem_filter.mp hfiltmem
      refine ⟨hmemt.1, by simpa using hmemt.2, ?_⟩
      intro u hu hupos
      have hufilt : u ∈ tiers.filter (fun t => t.quantity > 0) :=
        List.mem_filter.mpr ⟨hu, by simpa using hupos⟩
      rw [hf] at hufilt
      rcases List.mem_cons.mp hufilt with rfl | hu2
      · exact hle
      · exact hmin u hu2

/-- C8: for a product with at least one positive-quantity tier, typing a
non-negative quantity that matches no tier resolves against the smallest
positive-quantity tier `t` (first, second and third conjuncts characterize
`t` as a minimal positive tier of the product): the line gets
`price = Math.round(quantity * (t.price / t.quantity))` and tier label
`custom`. -/
theorem tier_resolution_custom (product : Product) (prev : NewItemState)
    (q : ℚ) (t : ProductTier) (hq : 0 ≤ q)
    (ht : smallestPositiveTier product.tiers = some t) :
    (t ∈ product.tiers ∧ 0 < t.quantity
      ∧ ∀ u ∈ product.tiers, 0 < u.quantity → t.quantity ≤ u.quantity)
    ∧ (handleNewItemManualChange (basePricePerUnitFor product) prev
        .quantity q).quantity = some q
    ∧ (handleNewItemManualChange (basePricePerUnitFor product) prev
        .quantity q).price
        = some ((jsRound (q * (t.price / t.quantity)) : ℤ) : ℚ)
    ∧ (handleNewItemManualChange (basePricePerUnitFor product) prev
        .quantity q).selectedTierLabel = "custom" := by
  refine ⟨smallestPositiveTier_spec product.tiers t ht, ?_, ?_, ?_⟩ <;>
    simp [handleNewItemManualChange, basePricePerUnitFor, ht,
      if_neg (not_lt.mpr hq)]

/-- Concrete product for the tier-resolution example: tiers
`[{"1g", 1, 10}, {"3.5g", 3.5, 30}]`. -/
def exProductC8 : Product :=
  { id := "p8", name := "Flower", type := "g", stock := 50,
    costPerUnit := 2,
    tiers := [{ sizeLabel := "1g", quantity := 1, price := 10 },
              { sizeLabel := "3.5g", quantity := 3.5, price := 30 }],
    lastOrdered := none }

/-- Fresh new-item form state with the example product selected. -/
def exNewItemC8 : NewItemState :=
  { productId := "p8", selectedTierLabel := "", quantity := none,
    price := none }

/-- C8 witness: requesting quantity 7 against the example tiers resolves to
price 70 with tier label `custom`. -/
theorem tier_resolution_custom_witness :
    (handleNewItemManualChange (basePricePerUnitFor exProductC8) exNewItemC8
        .quantity 7).price = some 70
    ∧ (handleNewItemManualChange (basePricePerUnitFor exProductC8) exNewItemC8
        .quantity 7).quantity = some 7
    ∧ (handleNewItemManualChange (basePricePerUnitFor exProductC8) exNewItemC8
        .quantity 7).selectedTierLabel = "custom" := by
  have ht : smallestPositiveTier exProductC8.tiers
      = some { sizeLabel := "1g", quantity := 1, price := 10 } := by
    norm_num [smallestPositiveTier, tierMinStep, List.filter, List.foldl,
      exProductC8]
  have h := tier_resolution_custom exProductC8 exNewItemC8 7
    { sizeLabel := "1g", quantity := 1, price := 10 } (by norm_num) ht
  refine ⟨?_, h.2.1, h.2.2.2⟩
  rw [h.2.2.1]
  norm_num [jsRound]

/-- The record produced by `clientDataWithStats`:
`{ ...client, orders, totalSpent, balance, totalDiscounts }` — the stored
`orders`/`totalSpent` fields are overwritten by the derived values. -/
structure ClientWithStats where
  id : String
  displayId : Nat
  name : String
  orders : Nat
  totalSpent : ℚ
  balance : ℚ
  totalDiscounts : ℚ
deriving DecidableEq

/-- View `clientDataWithStats` of `App.tsx`: per-client aggregates recomputed by
filtering and folding the current order collection. -/
def clientDataWithStats (clients : List Client) (orders : List Order) :
    List ClientWithStats :=
  clients.map (fun client =>
    let clientOrders := orders.filter (fun o => o.clientId == client.id)
    let totalSpent := clientOrders.foldl (fun sum o => sum + o.total) 0
    let totalPaid := clientOrders.foldl (fun sum o => sum + o.amountPaid) 0
    let totalDiscounts := clientOrders.foldl
      (fun sum o => sum + o.discount.amount) 0
    { id := client.id, displayId := client.displayId, name := client.name,
      orders := clientOrders.length, totalSpent := totalSpent,
      balance := totalSpent - totalPaid,
      totalDiscounts := totalDiscounts })

/-- C9: the derived per-client statistics are exactly the fresh fold over the
current order set — `orders` is the count of the client's orders,
`totalSpent` their summed totals, `balance` the summed totals minus the
summed amounts paid, `totalDiscounts` the summed discount amounts — and they
do not depend on the client's stored `orders`/`totalSpent` fields (second
conjunct). -/
theorem clientDataWithStats_fresh_fold (clients : List Client)
    (orders : List Order) :
    (clientDataWithStats clients orders
      = clients.map (fun client =>
          { id := client.id, displayId := client.displayId,
            name := client.name,
            orders := orders.countP (fun o => o.clientId == client.id),
            totalSpent := ((orders.filter
              (fun o => o.clientId == client.id)).map
                (fun o => o.total)).sum,
            balance := ((orders.filter
              (fun o => o.clientId == client.id)).map
                (fun o => o.total)).sum
              - ((orders.filter (fun o => o.clientId == client.id)).map
                (fun o => o.amountPaid)).sum,
            totalDiscounts := ((orders.filter
              (fun o => o.clientId == client.id)).map
                (fun o => o.discount.amount)).sum }))
    ∧ (∀ (c : Client) (n : Nat) (t : ℚ),
        clientDataWithStats [{ c with orders := n, totalSpent := t }] orders
          = clientDataWithStats [c] orders) := by
  constructor
  · rw [clientDataWithStats]
    refine List.map_congr_left (fun client _ => ?_)
    simp only [foldl_add_map, zero_add, List.countP_eq_length_filter]
  · intro c n t
    rw [clientDataWithStats, clientDataWithStats]
    rfl

/-- Minimal order request used for the identifier scenario. -/
def exOrderDataC10 : OrderData :=
  { clientId := "c1", items := [], date := "2024-01-03", notes := "",
    amountPaid := 0,
    paymentMethods := { cash := true, etransfer := false, other := false },
    fees := { amount := 0, description := "" },
    discount := { amount := 0, description := "" } }

/-- Create two orders, delete the first-created one, create again. -/
def exOpsC10 : List Op :=
  [Op.create "t1" exOrderDataC10,
   Op.create "t2" exOrderDataC10,
   Op.delete (mkNewOrder exOrderDataC10 []),
   Op.create "t3" exOrderDataC10]

/-- C10: the created order's identifier is `"ord-"` followed by the current
order count plus one, zero-padded to 4 digits (first conjunct), hence a
function of the order count only (second conjunct); consequently identifier
uniqueness is not preserved: creating two orders, deleting the first-created
one and creating again yields a state whose two orders share the identifier
`ord-0002` (third conjunct). -/
theorem orderId_from_count_only :
    (∀ (d : OrderData) (orders : List Order),
        (mkNewOrder d orders).id
          = "ord-" ++ padStart4 (toString (orders.length + 1)))
    ∧ (∀ (d d2 : OrderData) (orders orders2 : List Order),
        orders.length = orders2.length →
        (mkNewOrder d orders).id = (mkNewOrder d2 orders2).id)
    ∧ ((applyOps (([] : List Order), ([] : List Product)) exOpsC10).1.map
        Order.id = ["ord-0002", "ord-0002"]) := by
  refine ⟨fun d orders => rfl, ?_, ?_⟩
  · intro d d2 orders orders2 h
    show "ord-" ++ padStart4 (toString (orders.length + 1))
      = "ord-" ++ padStart4 (toString (orders2.length + 1))
    rw [h]
  · rfl

/-- C10 witness: two different one-order states yield the same next
identifier, the id being a function of the count alone. -/
theorem orderId_from_count_only_witness :
    (mkNewOrder exOrderDataC10 [mkNewOrder exOrderDataC10 []]).id
      = (mkNewOrder exOrderDataC10
          [mkNewOrder exOrderDataC10 [mkNewOrder exOrderDataC10 []]]).id :=
  orderId_from_count_only.2.1 exOrderDataC10 exOrderDataC10
    [mkNewOrder exOrderDataC10 []]
    [mkNewOrder exOrderDataC10 [mkNewOrder exOrderDataC10 []]] rfl
